import Mathlib

/-!
Shallow embedding of `src/nwup.js` (the nwup self-updater for packaged
NW.js applications) and proofs about its behaviour.

The module under verification is a single file.  Its parts, and how they
are embedded here:

* semantic-version comparison (`semver.lt`, used at `nwup.js:90`):
  modelled on parsed versions by `semverCompare` / `semverLt`, following
  standard semantic-versioning precedence;
* `checkForUpdate` (`nwup.js:71-102`): the request callback is embedded as
  `checkCallback`, a pure function from the callback's inputs to the list
  of deferred settlements it performs plus a flag recording whether the
  callback body threw;
* `downloadUpdate` (`nwup.js:119-208`): embedded as `downloadUpdate`, a
  function from configuration and a download environment (executable
  bytes, response status, content-length header, data chunks) to the
  trace of side effects, the progress notifications, the staged bytes and
  the final outcome;
* the persisted lifecycle (`localStorage.nwup` with keys `mode` and
  `execPath`, and the operations `isUpdating`, `needsCleaning`,
  `applyUpdate`, `completeUpdate`, `clean`): embedded as a `Store` record
  and pure transition functions.  The JSON blob only ever holds the two
  keys `mode` and `execPath`, and an absent blob is observationally equal
  (through `getData` / `storeData` / `removeData`) to a blob with both
  fields absent, so the store is the record of the two optional fields.
-/

namespace Nwup

/-! ### Semantic versions

`nwup.js:90` decides update availability with `semver.lt(current, remote)`.
The node-semver library compares parsed versions by major, minor, patch and
then the dot-separated pre-release identifiers; a numeric identifier
compares numerically and is lower than any alphanumeric identifier,
alphanumeric identifiers compare lexically, a shorter identifier list that
is a prefix of a longer one is lower, and a version with pre-release
identifiers precedes the same core version without them. -/

/-- One pre-release identifier: numeric or alphanumeric. -/
inductive PreId
  | num (n : Nat)
  | str (s : String)
deriving DecidableEq, Repr

/-- A parsed semantic version (build metadata is ignored by precedence). -/
structure Version where
  major : Nat
  minor : Nat
  patch : Nat
  pre : List PreId
deriving DecidableEq, Repr

/-- Lexicographic comparison of character lists by code point, the order
JavaScript's `<` induces on the identifier strings node-semver compares. -/
def cmpChars : List Char → List Char → Ordering
  | [], [] => .eq
  | [], _ :: _ => .lt
  | _ :: _, [] => .gt
  | a :: as, b :: bs =>
    match compare a.toNat b.toNat with
    | .eq => cmpChars as bs
    | o => o

/-- String comparison used for alphanumeric pre-release identifiers. -/
def cmpStr (a b : String) : Ordering := cmpChars a.data b.data

/-- node-semver `compareIdentifiers`: numeric identifiers compare
numerically and are lower than alphanumeric ones. -/
def cmpPreId : PreId → PreId → Ordering
  | .num a, .num b => compare a b
  | .num _, .str _ => .lt
  | .str _, .num _ => .gt
  | .str a, .str b => cmpStr a b

/-- Identifier-by-identifier comparison of two non-empty pre-release lists;
when one list is exhausted the shorter list is lower. -/
def cmpPreList : List PreId → List PreId → Ordering
  | [], [] => .eq
  | [], _ :: _ => .lt
  | _ :: _, [] => .gt
  | a :: as, b :: bs =>
    match cmpPreId a b with
    | .eq => cmpPreList as bs
    | o => o

/-- node-semver `comparePre`: a version with pre-release identifiers
precedes the same core version without any. -/
def cmpPre : List PreId → List PreId → Ordering
  | [], [] => .eq
  | [], _ :: _ => .gt
  | _ :: _, [] => .lt
  | a :: as, b :: bs =>
    match cmpPreId a b with
    | .eq => cmpPreList as bs
    | o => o

/-- Semantic-version precedence: major, then minor, then patch, then the
pre-release identifiers. -/
def semverCompare (a b : Version) : Ordering :=
  match compare a.major b.major with
  | .eq =>
    match compare a.minor b.minor with
    | .eq =>
      match compare a.patch b.patch with
      | .eq => cmpPre a.pre b.pre
      | o => o
    | o => o
  | o => o

/-- `semver.lt` as called at `nwup.js:90`. -/
def semverLt (a b : Version) : Bool := semverCompare a b == .lt

/-! ### checkForUpdate (`nwup.js:71-102`)

`checkForUpdate` creates a Q deferred and passes a callback to
`request(this.remoteAddress, ...)`.  The callback receives `(error,
response, body)`.  We embed the callback body as a pure function returning
the ordered list of `deferred.reject` / `deferred.resolve` calls it makes
and whether it threw.  `JSON.parse(body)` is modelled by the `parsed`
argument: `none` when the body does not parse (in which case `JSON.parse`
throws), `some m` when it parses to manifest `m`.  A Q deferred is settled
by its first `resolve` / `reject`; later calls are ignored. -/

/-- The remote update manifest: a parsed version plus the payload URL
(extra fields are passed through inside `updateInformation` untouched and
play no role in the control flow, so they are not modelled). -/
structure Manifest where
  version : Version
  update : String
deriving DecidableEq, Repr

/-- The slice of the HTTP response `checkForUpdate`'s callback reads. -/
structure Response where
  statusCode : Nat
deriving DecidableEq, Repr

/-- One settlement call on the Q deferred. -/
inductive Settled
  | resolve (updateAvailable : Bool) (updateInformation : Manifest)
  | reject (msg : String)
deriving DecidableEq, Repr

/-- What one run of the request callback did: the settlement calls in
order, and whether the callback body threw an uncaught exception. -/
structure CallbackRun where
  settles : List Settled
  threw : Bool
deriving DecidableEq, Repr

/-- Embedding of the request callback of `checkForUpdate`
(`nwup.js:77-99`).  Faithful control flow: a truthy `error` rejects but
execution continues; reading `response.statusCode` throws a TypeError when
`response` is absent; a non-200 status rejects; on status 200 the body is
parsed (`JSON.parse` throws on failure, before any settlement) and the
deferred is resolved with `semver.lt(currentVersion, remoteVersion)`. -/
def checkCallback (currentVersion : Version) (error : Option String)
    (response : Option Response) (parsed : Option Manifest) : CallbackRun :=
  let settles : List Settled :=
    match error with
    | some e => [.reject e]
    | none => []
  match response with
  | none => { settles := settles, threw := true }
  | some resp =>
    let settles :=
      if resp.statusCode ≠ 200 then
        settles ++ [.reject ("Server responded with status code: " ++ toString resp.statusCode)]
      else settles
    if resp.statusCode = 200 then
      match parsed with
      | none => { settles := settles, threw := true }
      | some m =>
        { settles := settles ++ [.resolve (semverLt currentVersion m.version) m],
          threw := false }
    else { settles := settles, threw := false }

/-- The outcome of the promise returned by `checkForUpdate`: the first
settlement wins; `none` means the promise is never settled. -/
def promiseOutcome (r : CallbackRun) : Option Settled := r.settles.head?

/-! ### downloadUpdate (`nwup.js:119-208`)

The download pipeline is embedded as a function of the configuration and
of a `DlEnv` describing what the filesystem and network deliver: the bytes
of the current executable, the payload response status, the
`content-length` header and the payload data chunks.  Bytes are natural
numbers.  The embedding records, for the dev-mode path, the non-200 path
and the success path: the side effects performed (in program order), the
progress notifications emitted, the bytes of the staged file, and the
settled outcome. -/

/-- Configuration read from the application manifest (`nwup.js:29-35`). -/
structure DlConfig where
  isDevMode : Bool
  runtimesize : Nat
deriving DecidableEq, Repr

/-- What the environment delivers to one run of `downloadUpdate`. -/
structure DlEnv where
  execBytes : List Nat
  statusCode : Nat
  contentLength : Nat
  chunks : List (List Nat)
deriving DecidableEq, Repr

/-- Filesystem / network side effects of `downloadUpdate`, in the order the
code starts them: read stream on the executable (`nwup.js:131`), `mkdirp`
of the temp dir (139), write stream for the extracted runtime (143), the
payload request (150), the `update.zip` write (163), the append merge
(179-200), the unlink (187) and the rename (193). -/
inductive Effect
  | readExecStream
  | createTmpDir
  | writeRuntimeFile
  | fetchPayload (url : String)
  | writeZipFile
  | appendZipToRuntime
  | unlinkZip
  | renameToStaged
deriving DecidableEq, Repr

/-- A progress notification sent through `deferred.notify`. -/
inductive Progress
  | total (totalSize : Nat)
  | received (receivedSize : Nat)
deriving DecidableEq, Repr

/-- Outcome of the promise returned by `downloadUpdate`. -/
inductive DlOutcome
  | resolved (path : String)
  | rejected (msg : String)
deriving DecidableEq, Repr

/-- Trace of one run of `downloadUpdate`. -/
structure DlRun where
  effects : List Effect
  progress : List Progress
  staged : Option (List Nat)
  outcome : DlOutcome
deriving DecidableEq, Repr

/-- `fs.createReadStream(execPath, {start: 0, end: runtimesize})`
(`nwup.js:131`): Node's `end` option is inclusive, so the stream yields the
bytes at offsets `0 .. runtimesize`, clamped to the file length — that is,
`runtimesize + 1` bytes of a sufficiently long file. -/
def extractedRuntime (runtimesize : Nat) (execBytes : List Nat) : List Nat :=
  execBytes.take (runtimesize + 1)

/-- The payload written to `update.zip`: the concatenation of the data
chunks, independent of how the stream was chunked. -/
def payloadBytes (chunks : List (List Nat)) : List Nat := chunks.flatten

/-- Running totals of `receivedSize` starting from accumulator `acc`
(`receivedSize += data.length` at `nwup.js:168`). -/
def receivedTotalsFrom (acc : Nat) : List Nat → List Nat
  | [] => []
  | n :: ns => (acc + n) :: receivedTotalsFrom (acc + n) ns

/-- Running totals of `receivedSize` over the chunk sizes, from 0
(`receivedSize = 0` at `nwup.js:158`). -/
def receivedTotals (chunkSizes : List Nat) : List Nat :=
  receivedTotalsFrom 0 chunkSizes

/-- The notifications of a successful download (`nwup.js:159-172`): one
`{totalSize}` from the `content-length` header when the response arrives,
then one `{receivedSize}` after each data chunk. -/
def notifications (contentLength : Nat) (chunks : List (List Nat)) : List Progress :=
  Progress.total contentLength ::
    (receivedTotals (chunks.map List.length)).map Progress.received

/-- The `receivedSize` values of a notification list, in order. -/
def receivedValues : List Progress → List Nat
  | [] => []
  | .total _ :: rest => receivedValues rest
  | .received n :: rest => n :: receivedValues rest

/-- Embedding of `downloadUpdate` (`nwup.js:119-208`).  In dev mode the
function returns `Q.reject('Update aborted in development environment')`
before touching the filesystem or network (121-123).  Otherwise the
runtime prefix is extracted into the temp dir, the payload is requested; a
non-200 status rejects (154-155); on 200 the chunks are notified and
written to `update.zip`, then appended to the extracted runtime, the zip
is unlinked and the merged file is renamed to `update.exe` next to the
current executable (174-201). -/
def downloadUpdate (cfg : DlConfig) (updateLocation : String)
    (execDir : String) (env : DlEnv) : DlRun :=
  if cfg.isDevMode then
    { effects := [], progress := [], staged := none,
      outcome := .rejected "Update aborted in development environment" }
  else if env.statusCode ≠ 200 then
    { effects := [.readExecStream, .createTmpDir, .writeRuntimeFile,
                  .fetchPayload updateLocation],
      progress := [],
      staged := none,
      outcome := .rejected "update file not found. server replied with code:" }
  else
    { effects := [.readExecStream, .createTmpDir, .writeRuntimeFile,
                  .fetchPayload updateLocation, .writeZipFile,
                  .appendZipToRuntime, .unlinkZip, .renameToStaged],
      progress := notifications env.contentLength env.chunks,
      staged := some (extractedRuntime cfg.runtimesize env.execBytes ++
                      payloadBytes env.chunks),
      outcome := .resolved (execDir ++ "/update.exe") }

/-! ### The persisted lifecycle (`nwup.js:47-59, 217-300, 323-347`)

`localStorage.nwup` is a JSON blob holding at most the keys `mode`
(`'UPDATE'` or `'CLEAN'`) and `execPath`.  `storeData` merges entries into
the blob, `removeData` deletes one field, `getData` reads one field
(`null` when the blob or the field is absent). -/

/-- `MODE_UPDATE` (`nwup.js:12`). -/
def MODE_UPDATE : String := "UPDATE"

/-- `MODE_CLEAN` (`nwup.js:13`). -/
def MODE_CLEAN : String := "CLEAN"

/-- The persisted record: the two fields the module ever stores. -/
structure Store where
  mode : Option String
  execPath : Option String
deriving DecidableEq, Repr

/-- `isUpdating` (`nwup.js:47-49`): `getData('mode') == 'UPDATE'`. -/
def isUpdating (s : Store) : Bool := s.mode == some MODE_UPDATE

/-- `needsCleaning` (`nwup.js:57-59`): `getData('mode') == 'CLEAN'`. -/
def needsCleaning (s : Store) : Bool := s.mode == some MODE_CLEAN

/-- Process-level actions a lifecycle transition performs after its store
writes: nothing, a detached respawn of a path followed by quitting the
current app (`respawn`, `nwup.js:309-320`), a scheduled re-invocation of
`completeUpdate` after a delay in milliseconds (`nwup.js:261`), or an
uncaught throw (`nwup.js:253`). -/
inductive Action
  | idle
  | respawn (path : String)
  | retry (delayMs : Nat)
  | fatal
deriving DecidableEq, Repr

/-- `applyUpdate(updatePath)` (`nwup.js:217-228`): a falsy `updatePath`
returns with no effect; otherwise the record `{mode: 'UPDATE', execPath:
process.execPath}` is persisted and `updatePath` is respawned. -/
def applyUpdate (s : Store) (currentExec : String)
    (updatePath : Option String) : Store × Action :=
  match updatePath with
  | none => (s, .idle)
  | some p => ({ mode := some MODE_UPDATE, execPath := some currentExec }, .respawn p)

/-- How the copy of the current executable onto the saved path fares: the
read stream on the current executable errors, the write stream on the
target errors, or the copy finishes. -/
inductive CopyOutcome
  | readError
  | writeError
  | success
deriving DecidableEq, Repr

/-- Result of one invocation of `completeUpdate`: the store afterwards,
whether a file copy was started, and the process-level action taken. -/
structure CUResult where
  store : Store
  copyAttempted : Bool
  action : Action
deriving DecidableEq, Repr

/-- `completeUpdate()` (`nwup.js:237-276`): with no persisted `execPath` it
returns at once (238-239); if the saved path equals the running
executable's path it removes both fields and returns (243-248); otherwise
it copies the current executable onto the saved path — a read error throws
(251-254), a write error schedules a retry of the whole step after 1000 ms
with the store untouched (259-262), and on finish it removes `execPath`,
stores `{mode: 'CLEAN'}` and respawns the saved path (264-272). -/
def completeUpdate (s : Store) (currentExec : String)
    (outcome : CopyOutcome) : CUResult :=
  match s.execPath with
  | none => { store := s, copyAttempted := false, action := .idle }
  | some oldExec =>
    if oldExec = currentExec then
      { store := { mode := none, execPath := none },
        copyAttempted := false, action := .idle }
    else
      match outcome with
      | .readError => { store := s, copyAttempted := true, action := .fatal }
      | .writeError => { store := s, copyAttempted := true, action := .retry 1000 }
      | .success =>
        { store := { mode := some MODE_CLEAN, execPath := none },
          copyAttempted := true, action := .respawn oldExec }

/-- A run of `completeUpdate` under a list of copy outcomes, one per
attempt: after a write error the step re-invokes itself on the resulting
store (`setTimeout(function() {self.completeUpdate();}, 1000)`,
`nwup.js:261`); any other action ends the run.  Returns the results of the
attempts in order. -/
def runCompleteUpdate (s : Store) (currentExec : String) :
    List CopyOutcome → List CUResult
  | [] => []
  | o :: os =>
    let r := completeUpdate s currentExec o
    match r.action with
    | .retry _ => r :: runCompleteUpdate r.store currentExec os
    | _ => [r]

/-- `clean()` (`nwup.js:284-300`): `rimraf` deletes the temp dir and
`update.exe`; the callback removes the `mode` field in the error branch
too (the rejection has already settled the deferred there).  The second
component is the rejection message, if any. -/
def clean (s : Store) (rimrafError : Option String) : Store × Option String :=
  ({ s with mode := none }, rimrafError)

/-- Stores reachable along the documented lifecycle, starting from an
absent blob: `applyUpdate` may be called whenever the host holds a staged
executable; `completeUpdate` is the startup continuation when
`isUpdating()` holds; `clean` is the startup continuation when
`needsCleaning()` holds. -/
inductive Reachable : Store → Prop
  | init : Reachable { mode := none, execPath := none }
  | applyStep (s : Store) (cur : String) (up : Option String) :
      Reachable s → Reachable (applyUpdate s cur up).1
  | completeStep (s : Store) (cur : String) (o : CopyOutcome) :
      Reachable s → Reachable (completeUpdate s cur o).store
  | cleanStep (s : Store) (e : Option String) :
      Reachable s → needsCleaning s = true → Reachable (clean s e).1

/-! ### Order lemmas for the semver comparison -/

theorem natCompare_swap (a b : Nat) : compare a b = (compare b a).swap := by
  rcases Nat.lt_trichotomy a b with h | h | h
  · rw [Nat.compare_eq_lt.mpr h, Nat.compare_eq_gt.mpr h]; rfl
  · rw [Nat.compare_eq_eq.mpr h, Nat.compare_eq_eq.mpr h.symm]; rfl
  · rw [Nat.compare_eq_gt.mpr h, Nat.compare_eq_lt.mpr h]; rfl

theorem cmpChars_swap (a b : List Char) : cmpChars a b = (cmpChars b a).swap := by
  induction a generalizing b with
  | nil => cases b <;> rfl
  | cons x xs ih =>
    cases b with
    | nil => rfl
    | cons y ys =>
      simp only [cmpChars]
      rw [natCompare_swap x.toNat y.toNat]
      cases compare y.toNat x.toNat with
      | lt => rfl
      | eq => exact ih ys
      | gt => rfl

theorem cmpPreId_swap (a b : PreId) : cmpPreId a b = (cmpPreId b a).swap := by
  cases a <;> cases b <;> simp only [cmpPreId, cmpStr]
  · exact natCompare_swap _ _
  · rfl
  · rfl
  · exact cmpChars_swap _ _

theorem cmpPreList_swap (a b : List PreId) :
    cmpPreList a b = (cmpPreList b a).swap := by
  induction a generalizing b with
  | nil => cases b <;> rfl
  | cons x xs ih =>
    cases b with
    | nil => rfl
    | cons y ys =>
      simp only [cmpPreList]
      rw [cmpPreId_swap x y]
      cases cmpPreId y x with
      | lt => rfl
      | eq => exact ih ys
      | gt => rfl

theorem cmpPre_swap (a b : List PreId) : cmpPre a b = (cmpPre b a).swap := by
  cases a with
  | nil => cases b <;> rfl
  | cons x xs =>
    cases b with
    | nil => rfl
    | cons y ys =>
      simp only [cmpPre]
      rw [cmpPreId_swap x y]
      cases cmpPreId y x with
      | lt => rfl
      | eq => exact cmpPreList_swap xs ys
      | gt => rfl

theorem semverCompare_swap (a b : Version) :
    semverCompare a b = (semverCompare b a).swap := by
  simp only [semverCompare]
  rw [natCompare_swap a.major b.major]
  cases compare b.major a.major with
  | lt => rfl
  | gt => rfl
  | eq =>
    rw [natCompare_swap a.minor b.minor]
    cases compare b.minor a.minor with
    | lt => rfl
    | gt => rfl
    | eq =>
      rw [natCompare_swap a.patch b.patch]
      cases compare b.patch a.patch with
      | lt => rfl
      | gt => rfl
      | eq => exact cmpPre_swap a.pre b.pre

/-! ### Lemmas about the progress notifications -/

theorem receivedTotalsFrom_head_ge (acc : Nat) (l : List Nat) :
    ∀ x ∈ (receivedTotalsFrom acc l).head?, acc ≤ x := by
  cases l with
  | nil => intro x hx; simp [receivedTotalsFrom] at hx
  | cons n ns =>
    intro x hx
    simp [receivedTotalsFrom] at hx
    omega

theorem receivedTotalsFrom_chain (acc : Nat) (l : List Nat) :
    List.Chain' (· ≤ ·) (receivedTotalsFrom acc l) := by
  induction l generalizing acc with
  | nil => exact List.chain'_nil
  | cons n ns ih =>
    rw [receivedTotalsFrom, List.chain'_cons']
    refine ⟨?_, ih (acc + n)⟩
    intro y hy
    exact receivedTotalsFrom_head_ge (acc + n) ns y hy

theorem receivedTotalsFrom_getLast (acc n : Nat) (l : List Nat) :
    (receivedTotalsFrom acc (n :: l)).getLast? = some (acc + n + l.sum) := by
  induction l generalizing acc n with
  | nil => simp [receivedTotalsFrom]
  | cons m ms ih =>
    have h2 : receivedTotalsFrom acc (n :: m :: ms) =
        (acc + n) :: receivedTotalsFrom (acc + n) (m :: ms) := rfl
    have h3 : receivedTotalsFrom (acc + n) (m :: ms) =
        (acc + n + m) :: receivedTotalsFrom (acc + n + m) ms := rfl
    rw [h2, h3, List.getLast?_cons_cons, ← h3, ih]
    congr 1
    simp [List.sum_cons]
    omega

theorem receivedTotals_getLast (l : List Nat) (hl : l ≠ []) :
    (receivedTotals l).getLast? = some l.sum := by
  cases l with
  | nil => exact absurd rfl hl
  | cons n ns =>
    rw [receivedTotals, receivedTotalsFrom_getLast]
    congr 1
    simp [List.sum_cons]

theorem receivedValues_map (l : List Nat) :
    receivedValues (l.map Progress.received) = l := by
  induction l with
  | nil => rfl
  | cons n ns ih => simp [receivedValues, ih]

/-! ### Claim theorems -/

set_option maxRecDepth 10000 in
/-- C1: the staged executable is NOT the first `runtimesize` bytes of the
current executable followed by the payload.  `fs.createReadStream(execPath,
{start: 0, end: runtimesize})` at `nwup.js:131` has an inclusive `end`, so
one extra byte is copied: with `runtimesize = 1000`, a 1500-byte current
executable and a 2000-byte payload, the staged file has 3001 bytes, not
the 3000 the code's own comment (`read out runtimesize bytes`,
`nwup.js:130`) intends. -/
theorem downloadUpdate_staged_off_by_one :
    ((downloadUpdate { isDevMode := false, runtimesize := 1000 }
        "http://x/u.zip" "C:/app"
        { execBytes := List.replicate 1500 7, statusCode := 200,
          contentLength := 2000,
          chunks := [List.replicate 2000 9] }).staged).map List.length
      = some 3001 := by
  simp [downloadUpdate, extractedRuntime, payloadBytes, List.take_replicate]

/-- C4: if the persisted `savedExecPath` equals the running executable's
path, `completeUpdate` clears both persisted fields and takes no further
action — no copy is started, no retry scheduled, no process respawned —
whatever the copy environment would have produced. -/
theorem completeUpdate_self_target_aborts (m : Option String) (cur : String)
    (o : CopyOutcome) :
    completeUpdate { mode := m, execPath := some cur } cur o
      = { store := { mode := none, execPath := none },
          copyAttempted := false, action := .idle } := by
  simp [completeUpdate]

/-- C9: in development mode `downloadUpdate` rejects at once with the
dev-mode message and performs no filesystem or network effect, emits no
progress notification, and stages nothing. -/
theorem downloadUpdate_dev_mode_rejects (runtimesize : Nat)
    (updateLocation execDir : String) (env : DlEnv) :
    downloadUpdate { isDevMode := true, runtimesize := runtimesize }
        updateLocation execDir env
      = { effects := [], progress := [], staged := none,
          outcome := .rejected "Update aborted in development environment" } := by
  rfl

/-- C10: with no persisted `execPath` — in particular in the inconsistent
state where `mode` is `'UPDATE'` but `execPath` is absent —
`completeUpdate` returns immediately: the store is unchanged, no copy is
started and no process action is taken. -/
theorem completeUpdate_no_saved_path_noop (m : Option String) (cur : String)
    (o : CopyOutcome) :
    completeUpdate { mode := m, execPath := none } cur o
      = { store := { mode := m, execPath := none },
          copyAttempted := false, action := .idle } := by
  rfl

/-- C2: starting from any persisted state, after `applyUpdate`'s
persistence step a startup observes `isUpdating() = true`; after a
successful `completeUpdate` (run from a distinct staged binary, with the
copy finishing) the next startup observes `isUpdating() = false` and
`needsCleaning() = true`; after `clean()` both observations are `false`. -/
theorem lifecycle_phases_across_restarts (s₀ : Store) (cur newExec up : String)
    (h : cur ≠ newExec) :
    isUpdating (applyUpdate s₀ cur (some up)).1 = true ∧
    isUpdating
      (completeUpdate (applyUpdate s₀ cur (some up)).1 newExec .success).store
      = false ∧
    needsCleaning
      (completeUpdate (applyUpdate s₀ cur (some up)).1 newExec .success).store
      = true ∧
    isUpdating
      (clean (completeUpdate (applyUpdate s₀ cur (some up)).1 newExec
        .success).store none).1 = false ∧
    needsCleaning
      (clean (completeUpdate (applyUpdate s₀ cur (some up)).1 newExec
        .success).store none).1 = false := by
  simp +decide [applyUpdate, completeUpdate, clean, isUpdating, needsCleaning,
    MODE_UPDATE, MODE_CLEAN, h]

/-- C2 witness: the scenario at concrete paths. -/
theorem lifecycle_phases_across_restarts_witness :
    isUpdating
      (applyUpdate { mode := none, execPath := none } "app.exe"
        (some "update.exe")).1 = true ∧
    isUpdating
      (completeUpdate
        (applyUpdate { mode := none, execPath := none } "app.exe"
          (some "update.exe")).1 "update.exe" .success).store = false ∧
    needsCleaning
      (completeUpdate
        (applyUpdate { mode := none, execPath := none } "app.exe"
          (some "update.exe")).1 "update.exe" .success).store = true ∧
    isUpdating
      (clean (completeUpdate
        (applyUpdate { mode := none, execPath := none } "app.exe"
          (some "update.exe")).1 "update.exe" .success).store none).1 = false ∧
    needsCleaning
      (clean (completeUpdate
        (applyUpdate { mode := none, execPath := none } "app.exe"
          (some "update.exe")).1 "update.exe" .success).store none).1 = false :=
  lifecycle_phases_across_restarts { mode := none, execPath := none }
    "app.exe" "update.exe" "update.exe" (by decide)

/-- C3: on a successful fetch of a parsed manifest, `checkForUpdate`
resolves once with `updateAvailable = semver.lt(current, remote)`;
`semverLt` holds exactly when the current version precedes the remote one
under semantic-versioning precedence, fails whenever the current version
follows or equals the remote one, and a pre-release version precedes its
corresponding release. -/
theorem checkForUpdate_semver_order :
    (∀ (a : Version) (m : Manifest),
      (checkCallback a none (some { statusCode := 200 }) (some m)).settles
        = [Settled.resolve (semverLt a m.version) m]) ∧
    (∀ a b : Version, semverCompare a b = .lt → semverLt a b = true) ∧
    (∀ a b : Version,
      semverCompare b a = .lt ∨ semverCompare a b = .eq →
        semverLt a b = false) ∧
    (∀ v : Version, v.pre ≠ [] →
      semverCompare v { v with pre := [] } = .lt) := by
  refine ⟨?_, ?_, ?_, ?_⟩
  · intro a m
    simp [checkCallback]
  · intro a b h
    simp only [semverLt, h]
    rfl
  · intro a b h
    rcases h with h | h
    · rw [semverLt, semverCompare_swap a b, h]
      rfl
    · simp only [semverLt, h]
      rfl
  · intro v h
    have hself : ∀ n : Nat, compare n n = Ordering.eq :=
      fun n => Nat.compare_eq_eq.mpr rfl
    simp only [semverCompare, hself]
    cases hp : v.pre with
    | nil => exact absurd hp h
    | cons x xs => rfl

/-- C3 witness: `1.0.0 < 1.1.0` makes the update available. -/
theorem checkForUpdate_semver_order_witness :
    semverLt { major := 1, minor := 0, patch := 0, pre := [] }
      { major := 1, minor := 1, patch := 0, pre := [] } = true :=
  checkForUpdate_semver_order.2.1
    { major := 1, minor := 0, patch := 0, pre := [] }
    { major := 1, minor := 1, patch := 0, pre := [] } (by decide)

/-- C5 counterexample: with a success (200) response whose body does not
parse, the callback settles the deferred zero times — `JSON.parse` throws
before any `reject`, the exception escapes the callback, and the promise
returned by `checkForUpdate` never yields any failure outcome. -/
theorem checkForUpdate_parse_failure_unsettled :
    promiseOutcome
      (checkCallback { major := 1, minor := 0, patch := 0, pre := [] }
        none (some { statusCode := 200 }) none) = none ∧
    (checkCallback { major := 1, minor := 0, patch := 0, pre := [] }
      none (some { statusCode := 200 }) none).threw = true := by
  exact ⟨rfl, rfl⟩

/-- C5 (amended): a fetch error settles the promise exactly once, with
that error (the callback then throws reading `response.statusCode`, but
the rejection has already settled the deferred); a non-success status
yields a single protocol rejection; a parsed 200 response yields a single
resolution; but an unparseable 200 body settles the promise zero times —
the `JSON.parse` exception escapes instead of producing a failure
outcome. -/
theorem checkForUpdate_settlement :
    (∀ (a : Version) (e : String),
      (checkCallback a (some e) none none).settles = [Settled.reject e] ∧
      (checkCallback a (some e) none none).threw = true) ∧
    (∀ (a : Version) (resp : Response) (parsed : Option Manifest),
      resp.statusCode ≠ 200 →
      (checkCallback a none (some resp) parsed).settles
        = [Settled.reject
            ("Server responded with status code: " ++ toString resp.statusCode)]) ∧
    (∀ (a : Version) (m : Manifest),
      (checkCallback a none (some { statusCode := 200 }) (some m)).settles
        = [Settled.resolve (semverLt a m.version) m]) ∧
    (∀ a : Version,
      (checkCallback a none (some { statusCode := 200 }) none).settles = [] ∧
      (checkCallback a none (some { statusCode := 200 }) none).threw = true) := by
  refine ⟨?_, ?_, ?_, ?_⟩
  · intro a e
    exact ⟨rfl, rfl⟩
  · intro a resp parsed h
    simp [checkCallback, h]
  · intro a m
    simp [checkCallback]
  · intro a
    exact ⟨rfl, rfl⟩

/-- C5 witness: a 404 response yields the single protocol rejection. -/
theorem checkForUpdate_settlement_witness :
    (checkCallback { major := 1, minor := 0, patch := 0, pre := [] }
      none (some { statusCode := 404 }) none).settles
      = [Settled.reject ("Server responded with status code: " ++ toString (404 : Nat))] :=
  checkForUpdate_settlement.2.1
    { major := 1, minor := 0, patch := 0, pre := [] }
    { statusCode := 404 } none (by decide)

/-- C6: on a successful download (production mode, 200 status, and the
stream delivering exactly the announced `content-length` bytes), the first
notification announces `totalSize` from the `content-length` header, the
`receivedSize` notifications are non-decreasing, and — whenever at least
one data chunk arrived — the final `receivedSize` equals the announced
`totalSize`. -/
theorem downloadUpdate_progress_monotone (cfg : DlConfig)
    (updateLocation execDir : String) (env : DlEnv)
    (hdev : cfg.isDevMode = false) (hstatus : env.statusCode = 200)
    (hsum : (env.chunks.map List.length).sum = env.contentLength) :
    (downloadUpdate cfg updateLocation execDir env).progress.head?
      = some (.total env.contentLength) ∧
    List.Chain' (· ≤ ·)
      (receivedValues (downloadUpdate cfg updateLocation execDir env).progress) ∧
    (env.chunks ≠ [] →
      (receivedValues
        (downloadUpdate cfg updateLocation execDir env).progress).getLast?
        = some env.contentLength) := by
  have hrun : (downloadUpdate cfg updateLocation execDir env).progress
      = notifications env.contentLength env.chunks := by
    simp [downloadUpdate, hdev, hstatus]
  have hvals : receivedValues (notifications env.contentLength env.chunks)
      = receivedTotals (env.chunks.map List.length) := by
    rw [notifications, receivedValues, receivedValues_map]
  refine ⟨?_, ?_, ?_⟩
  · rw [hrun, notifications]
    rfl
  · rw [hrun, hvals, receivedTotals]
    exact receivedTotalsFrom_chain 0 _
  · intro hne
    rw [hrun, hvals, receivedTotals_getLast _ ?_, hsum]
    simpa using hne

/-- C6 witness: two chunks of sizes 2 and 3 against `content-length` 5. -/
theorem downloadUpdate_progress_monotone_witness :
    (downloadUpdate { isDevMode := false, runtimesize := 3 } "u" "d"
      { execBytes := [1, 2, 3, 4, 5, 6], statusCode := 200,
        contentLength := 5, chunks := [[1, 2], [3, 4, 5]] }).progress.head?
      = some (.total 5) ∧
    List.Chain' (· ≤ ·)
      (receivedValues
        (downloadUpdate { isDevMode := false, runtimesize := 3 } "u" "d"
          { execBytes := [1, 2, 3, 4, 5, 6], statusCode := 200,
            contentLength := 5, chunks := [[1, 2], [3, 4, 5]] }).progress) ∧
    (([[1, 2], [3, 4, 5]] : List (List Nat)) ≠ [] →
      (receivedValues
        (downloadUpdate { isDevMode := false, runtimesize := 3 } "u" "d"
          { execBytes := [1, 2, 3, 4, 5, 6], statusCode := 200,
            contentLength := 5, chunks := [[1, 2], [3, 4, 5]] }).progress).getLast?
        = some 5) :=
  downloadUpdate_progress_monotone
    { isDevMode := false, runtimesize := 3 } "u" "d"
    { execBytes := [1, 2, 3, 4, 5, 6], statusCode := 200,
      contentLength := 5, chunks := [[1, 2], [3, 4, 5]] }
    rfl rfl (by decide)

/-- C7: while the write stream onto `savedExecPath` keeps erroring,
`completeUpdate` surfaces no fatal error: each attempt leaves the
persisted fields exactly as they were and schedules the whole step again
after the fixed 1000 ms delay, for any number of failures, until an
attempt whose copy finishes clears `execPath`, stores `{mode: 'CLEAN'}`
and respawns the saved path. -/
theorem completeUpdate_write_error_retries (m : Option String)
    (saved cur : String) (h : saved ≠ cur) (n : Nat) :
    runCompleteUpdate { mode := m, execPath := some saved } cur
        (List.replicate n .writeError ++ [.success])
      = List.replicate n
          { store := { mode := m, execPath := some saved },
            copyAttempted := true, action := .retry 1000 }
        ++ [{ store := { mode := some MODE_CLEAN, execPath := none },
              copyAttempted := true, action := .respawn saved }] := by
  induction n with
  | zero => simp [runCompleteUpdate, completeUpdate, h]
  | succ k ih =>
    rw [List.replicate_succ, List.cons_append, List.replicate_succ,
      List.cons_append, runCompleteUpdate]
    simp only [completeUpdate, if_neg h]
    exact congrArg _ ih

/-- C7 witness: two write failures then success, from the mid-update
store. -/
theorem completeUpdate_write_error_retries_witness :
    runCompleteUpdate { mode := some MODE_UPDATE, execPath := some "app.exe" }
        "update.exe" (List.replicate 2 .writeError ++ [.success])
      = List.replicate 2
          { store := { mode := some MODE_UPDATE, execPath := some "app.exe" },
            copyAttempted := true, action := .retry 1000 }
        ++ [{ store := { mode := some MODE_CLEAN, execPath := none },
              copyAttempted := true, action := .respawn "app.exe" }] :=
  completeUpdate_write_error_retries (some MODE_UPDATE) "app.exe" "update.exe"
    (by decide) 2

/-- C8: in every store reachable along the lifecycle, a present `execPath`
implies the persisted mode is `'UPDATE'`; a `completeUpdate` whose copy
finishes leaves `execPath` absent, the self-target abort clears it
whatever the copy outcome, `applyUpdate` is the transition that sets it
and does so together with mode `'UPDATE'`, and neither `completeUpdate`
nor `clean` ever introduces an `execPath` that was absent. -/
theorem savedExecPath_only_while_updating :
    (∀ s : Store, Reachable s → ∀ p, s.execPath = some p →
      s.mode = some MODE_UPDATE) ∧
    (∀ (s : Store) (cur : String),
      (completeUpdate s cur .success).store.execPath = none) ∧
    (∀ (m : Option String) (cur : String) (o : CopyOutcome),
      (completeUpdate { mode := m, execPath := some cur } cur o).store.execPath
        = none) ∧
    (∀ (s : Store) (cur up : String),
      (applyUpdate s cur (some up)).1
        = { mode := some MODE_UPDATE, execPath := some cur }) ∧
    (∀ (s : Store) (cur : String) (o : CopyOutcome), s.execPath = none →
      (completeUpdate s cur o).store.execPath = none) ∧
    (∀ (s : Store) (e : Option String), (clean s e).1.execPath = s.execPath) := by
  refine ⟨?_, ?_, ?_, ?_, ?_, ?_⟩
  · intro s hs
    induction hs with
    | init => intro p hp; simp at hp
    | applyStep s cur up hs ih =>
      cases up with
      | none => exact ih
      | some u => intro p hp; rfl
    | completeStep s cur o hs ih =>
      cases hsome : s.execPath with
      | none =>
        simp only [completeUpdate, hsome]
        intro p hp
        exact Option.noConfusion hp
      | some old =>
        by_cases hc : old = cur
        · intro p hp
          simp [completeUpdate, hsome, hc] at hp
        · cases o with
          | readError => simpa only [completeUpdate, hsome, if_neg hc] using ih
          | writeError => simpa only [completeUpdate, hsome, if_neg hc] using ih
          | success =>
            intro p hp
            simp [completeUpdate, hsome, if_neg hc] at hp
    | cleanStep s e hs hneeds ih =>
      intro p hp
      exfalso
      have hmode : s.mode = some MODE_UPDATE := ih p hp
      have hbad : needsCleaning s = false := by
        simp only [needsCleaning, hmode]
        decide
      rw [hbad] at hneeds
      exact Bool.noConfusion hneeds
  · intro s cur
    cases hsome : s.execPath with
    | none => simp [completeUpdate, hsome, hsome]
    | some old =>
      by_cases hc : old = cur
      · simp [completeUpdate, hsome, hc]
      · simp [completeUpdate, hsome, if_neg hc]
  · intro m cur o
    simp [completeUpdate]
  · intro s cur up
    rfl
  · intro s cur o h
    simp [completeUpdate, h]
  · intro s e
    rfl

/-- C8 witness: the store persisted by `applyUpdate` satisfies the
invariant. -/
theorem savedExecPath_only_while_updating_witness :
    ({ mode := some MODE_UPDATE, execPath := some "app.exe" } : Store).mode
      = some MODE_UPDATE :=
  savedExecPath_only_while_updating.1
    { mode := some MODE_UPDATE, execPath := some "app.exe" }
    (Reachable.applyStep { mode := none, execPath := none } "app.exe"
      (some "update.exe") Reachable.init)
    "app.exe" rfl

end Nwup
